/-
  Verification of the task/status ordering engine of a project-management
  REST backend (Express + Sequelize over MySQL).

  The state of the engine is the pair of relational tables the handlers
  touch: `tasks` and `project_statuses` (lanes).  Handlers are embedded as
  pure functions on that state; a Sequelize bulk
  `Model.update(values, where)` becomes a `List.map` guarded by the WHERE
  condition, an instance-level `task.update(...)` becomes an update of the
  row holding the primary key of the task, routed through the
  `beforeUpdate` hook of the model, and a thrown/awaited error becomes `Except.error`.
  Timestamps are modelled by an explicit `now : Nat` clock value.
  Authentication and authorization middleware is out of scope and omitted.
-/
import Mathlib

set_option linter.all false

namespace PMBackend

/-- A row of the `tasks` table (models/Task.js).  Fields that play no role
in the ordering engine (description, assignee, creator, due date) are
omitted.  `status_id` is nullable, `position` is an SQL INTEGER, `status`
is the coarse status enumeration and `completedAt` the nullable
`completed_at` timestamp. -/
structure Task where
  id : Nat
  title : String
  status_id : Option Nat
  position : Int
  status : String
  priority : String
  project_id : Nat
  completedAt : Option Nat
  deriving Repr, DecidableEq

/-- A row of the `project_statuses` table (models/ProjectStatus.js): a
kanban lane. -/
structure Lane where
  id : Nat
  project_id : Nat
  status_key : String
  title : String
  color : String
  order_index : Int
  is_default : Bool
  is_active : Bool
  deriving Repr, DecidableEq

/-- The database state seen by the ordering engine: the two tables. -/
structure DB where
  tasks : List Task
  lanes : List Lane
  deriving Repr, DecidableEq

/-- The `statusMapping` lookup of the cross-status branch of
PUT /api/tasks/:id/status: index `statusMapping` by `newStatus.status_key`
and fall back to `todo` when the key is absent. -/
def statusMapping (key : String) : String :=
  if key = "todo" then "todo"
  else if key = "in-progress" then "in-progress"
  else if key = "completed" then "completed"
  else "todo"

/-- The `beforeUpdate` hook of models/Task.js: when the update changed the
`status` field, a transition into `completed` stamps `completedAt` with the
current time and a transition to any non-completed status clears it.
`prev` is `task._previousDataValues.status`, `t` the instance after the
pending changes were set. -/
def beforeUpdateHook (prev : String) (t : Task) (now : Nat) : Task :=
  if t.status ≠ prev then
    if t.status = "completed" ∧ prev ≠ "completed" then
      { t with completedAt := some now }
    else if t.status ≠ "completed" then
      { t with completedAt := none }
    else t
  else t

/-- Instance-level `task.update(f task)` for the row with primary key
`id`: the row is replaced by `f` applied to it, routed through the
`beforeUpdate` hook with the current `status` of the row as previous value. -/
def updateTaskRow (db : DB) (id : Nat) (f : Task → Task) (now : Nat) : DB :=
  { db with tasks := db.tasks.map fun t =>
      if t.id = id then beforeUpdateHook t.status (f t) now else t }

/-- Bulk `Task.update({position: position - 1}, {where: {status_id,
position: {gt: oldPosition, lte: position}}})` of the same-status branch
(moving down). -/
def shiftSameStatusDown (db : DB) (status_id : Nat) (oldPosition position : Int) : DB :=
  { db with tasks := db.tasks.map fun t =>
      if t.status_id = some status_id ∧ oldPosition < t.position ∧ t.position ≤ position then
        { t with position := t.position - 1 }
      else t }

/-- Bulk `Task.update({position: position + 1}, {where: {status_id,
position: {gte: position, lt: oldPosition}}})` of the same-status branch
(moving up). -/
def shiftSameStatusUp (db : DB) (status_id : Nat) (oldPosition position : Int) : DB :=
  { db with tasks := db.tasks.map fun t =>
      if t.status_id = some status_id ∧ position ≤ t.position ∧ t.position < oldPosition then
        { t with position := t.position + 1 }
      else t }

/-- Bulk `Task.update({position: position - 1}, {where: {status_id:
oldStatusId, position: {gt: oldPosition}}})` of the cross-status branch:
compacts the vacated lane.  `oldStatusId` may be NULL, which Sequelize
renders as `status_id IS NULL`. -/
def shiftOldStatus (db : DB) (oldStatusId : Option Nat) (oldPosition : Int) : DB :=
  { db with tasks := db.tasks.map fun t =>
      if t.status_id = oldStatusId ∧ oldPosition < t.position then
        { t with position := t.position - 1 }
      else t }

/-- Bulk `Task.update({position: position + 1}, {where: {status_id,
position: {gte: position}}})` of the cross-status branch: opens a slot in
the target lane. -/
def shiftNewStatus (db : DB) (status_id : Nat) (position : Int) : DB :=
  { db with tasks := db.tasks.map fun t =>
      if t.status_id = some status_id ∧ position ≤ t.position then
        { t with position := t.position + 1 }
      else t }

/-- The handler of PUT /api/tasks/:id/status.  Looks up the task by
primary key, validates that the target status exists, belongs to the
project of the task and is active, then either reorders within the same status
or moves across statuses, shifting neighbours and finally updating the
own row of the task.  The handler opens no transaction: the bulk shifts and the
row update are issued as separate sequential statements. -/
def moveTask (db : DB) (id : Nat) (status_id : Nat) (position : Int) (now : Nat) :
    Except String DB :=
  match db.tasks.find? (fun t => t.id == id) with
  | none => .error "Task not found"
  | some task =>
    let oldStatusId := task.status_id
    let oldPosition := task.position
    match db.lanes.find? (fun s =>
        s.id == status_id && s.project_id == task.project_id && s.is_active) with
    | none => .error "Invalid status"
    | some newStatus =>
      if oldStatusId = some status_id then
        let db1 :=
          if oldPosition < position then
            shiftSameStatusDown db status_id oldPosition position
          else if oldPosition > position then
            shiftSameStatusUp db status_id oldPosition position
          else db
        .ok (updateTaskRow db1 id (fun t => { t with position := position }) now)
      else
        let db1 := shiftOldStatus db oldStatusId oldPosition
        let db2 := shiftNewStatus db1 status_id position
        let enumStatus := statusMapping newStatus.status_key
        .ok (updateTaskRow db2 id
          (fun t => { t with status_id := some status_id, position := position,
                             status := enumStatus }) now)

/-- The positions of the tasks currently in lane `laneId`. -/
def lanePositions (db : DB) (laneId : Nat) : List Int :=
  (db.tasks.filter fun t => t.status_id == some laneId).map (·.position)

/-- The density invariant for one lane: the positions of its `n` tasks are
a permutation of `0, 1, ..., n-1` (no duplicates, no gaps). -/
def laneIsDense (db : DB) (laneId : Nat) : Prop :=
  (lanePositions db laneId).Perm
    (((List.range (lanePositions db laneId).length)).map Int.ofNat)

instance (db : DB) (laneId : Nat) : Decidable (laneIsDense db laneId) :=
  inferInstanceAs (Decidable (List.Perm _ _))

/-- The maximum `position` among the tasks of a lane, as obtained by
`Task.findOne` filtered by `status_id` and ordered by `position` descending. -/
def lastPositionIn (db : DB) (laneId : Nat) : Option Int :=
  (lanePositions db laneId).max?

/-- The handler of POST /api/tasks.  Resolves the active default
`todo` lane of the project, computes the tail position `last + 1` (0 for an empty lane)
and inserts the new task there with coarse status `todo`; no existing row
is updated.  When the project has no active `todo` lane the position query
is issued with an undefined `status_id`, which Sequelize rejects, so the
handler reports an error and creates nothing. -/
def createTask (db : DB) (newId : Nat) (title : String) (priority : String)
    (project_id : Nat) : Except String (DB × Task) :=
  match db.lanes.find? (fun s =>
      s.project_id == project_id && s.status_key == "todo" && s.is_active) with
  | none => .error "WHERE parameter has an invalid undefined value"
  | some defaultStatus =>
    let newPosition : Int :=
      match lastPositionIn db defaultStatus.id with
      | some last => last + 1
      | none => 0
    let task : Task :=
      { id := newId, title := title, status_id := some defaultStatus.id,
        position := newPosition, status := "todo", priority := priority,
        project_id := project_id, completedAt := none }
    .ok ({ db with tasks := db.tasks ++ [task] }, task)

/-- The handler of DELETE /api/tasks/:id: looks the task up by primary key
and calls `task.destroy()`.  No other statement is issued — in particular
no position of any surviving task is touched. -/
def deleteTask (db : DB) (id : Nat) : Except String DB :=
  match db.tasks.find? (fun t => t.id == id) with
  | none => .error "Task not found"
  | some _ => .ok { db with tasks := db.tasks.filter fun t => ¬ t.id = id }

/-- Key derivation of POST /api/statuses:
lower-case the title, replace each whitespace run by one hyphen, then
strip every character outside lower-case letters, digits and hyphens.
`replaceWsRuns` replaces each maximal whitespace run by one hyphen;
`keepAllowed` keeps only `[a-z0-9-]`. -/
def replaceWsRuns : Bool → List Char → List Char
  | _, [] => []
  | prevWs, c :: rest =>
    if c.isWhitespace then
      (if prevWs then [] else ['-']) ++ replaceWsRuns true rest
    else
      c :: replaceWsRuns false rest

def keepAllowed (c : Char) : Bool :=
  (('a' ≤ c && c ≤ 'z') || c.isDigit || c == '-')

def generateStatusKey (title : String) : String :=
  String.mk (((replaceWsRuns false (title.data.map Char.toLower))).filter keepAllowed)

/-- The handler of POST /api/statuses.  Validates the required fields,
takes the highest `order_index` among the lanes of the project — active or
not — via `findOne` filtered by `project_id` ordered by `order_index`
descending,
derives the key when none is given, and inserts the lane; a key collision
violates the `(project_id, status_key)` unique index and surfaces as an
error with nothing inserted. -/
def createStatus (db : DB) (newId : Nat) (title : String) (color : Option String)
    (project_id : Nat) (status_key : Option String) : Except String (DB × Lane) :=
  if title = "" ∨ project_id = 0 then
    .error "Title and project_id are required"
  else
    let lastStatus :=
      ((db.lanes.filter fun s => s.project_id == project_id).map (·.order_index)).max?
    let newOrderIndex : Int :=
      match lastStatus with
      | some last => last + 1
      | none => 0
    let generatedKey := status_key.getD (generateStatusKey title)
    if db.lanes.any (fun s => s.project_id == project_id && s.status_key == generatedKey) then
      .error "Validation error: project_id must be unique with status_key"
    else
      let lane : Lane :=
        { id := newId, project_id := project_id, status_key := generatedKey,
          title := title, color := color.getD "#6b7280", order_index := newOrderIndex,
          is_default := false, is_active := true }
      .ok ({ db with lanes := db.lanes ++ [lane] }, lane)

/-- One statement of PUT /api/statuses/reorder/:projectId:
`ProjectStatus.update({order_index: index}, {where: {id: statusId,
project_id: projectId}})`.  An id that does not belong to the project
matches no row and the statement silently does nothing. -/
def reorderStep (project_id : Nat) (statusId : Nat) (index : Int) (db : DB) : DB :=
  { db with lanes := db.lanes.map fun s =>
      if s.id = statusId ∧ s.project_id = project_id then
        { s with order_index := index }
      else s }

/-- The handler of PUT /api/statuses/reorder/:projectId: one independent
update per listed id (the handler issues them through `Promise.all`,
with no transaction around them).  Executed here in list order. -/
def reorderStatuses (db : DB) (project_id : Nat) (statusIds : List Nat) : DB :=
  statusIds.enum.foldl (fun acc p => reorderStep project_id p.2 (Int.ofNat p.1) acc) db

/-- The state after only the first `k` update statements of the reorder
have completed — the state observable when a later statement of the
`Promise.all` batch fails, since no transaction rolls the earlier ones
back. -/
def reorderFirstK (db : DB) (project_id : Nat) (statusIds : List Nat) (k : Nat) : DB :=
  (statusIds.enum.take k).foldl (fun acc p => reorderStep project_id p.2 (Int.ofNat p.1) acc) db

/-- Decidable equality of handler results, so that concrete runs can be
checked by evaluation. -/
instance {ε α : Type} [DecidableEq ε] [DecidableEq α] : DecidableEq (Except ε α) := fun x y =>
  match x, y with
  | .ok a, .ok b =>
    if h : a = b then isTrue (congrArg Except.ok h)
    else isFalse fun hc => h (Except.ok.inj hc)
  | .ok _, .error _ => isFalse fun hc => Except.noConfusion hc
  | .error _, .ok _ => isFalse fun hc => Except.noConfusion hc
  | .error a, .error b =>
    if h : a = b then isTrue (congrArg Except.error h)
    else isFalse fun hc => h (Except.error.inj hc)

/-- Same-lane move as the specification words it: the moved task takes
`p`; when `p > oldPos` exactly the lane tasks with position in
`(oldPos, p]` shift by one down; when `p < oldPos` exactly the lane tasks
with position in `[p, oldPos)` shift by one up; every other task is left
alone. -/
def sameLaneMoveSpecFn (laneId movedId : Nat) (oldPos p : Int) (t : Task) : Task :=
  if t.id = movedId then
    { t with position := p }
  else if t.status_id = some laneId ∧ oldPos < t.position ∧ t.position ≤ p then
    { t with position := t.position - 1 }
  else if t.status_id = some laneId ∧ p ≤ t.position ∧ t.position < oldPos then
    { t with position := t.position + 1 }
  else t

/-- The coarse status enumeration the specification assigns from a lane
key: the three semantic keys map to themselves, every other key defaults
to `todo`. -/
def coarseStatusOfKey (key : String) : String :=
  if key = "todo" ∨ key = "in-progress" ∨ key = "completed" then key else "todo"

/-- Cross-lane move as the specification words it: the moved task is
reassigned to the target lane at `p` with its coarse status recomputed
from the target lane key; exactly the old-lane tasks strictly after
`oldPos` shift down; exactly the target-lane tasks at or after `p` shift
up. -/
def crossLaneMoveSpecFn (oldLane : Option Nat) (targetLane movedId : Nat) (oldPos p : Int)
    (targetKey : String) (t : Task) : Task :=
  if t.id = movedId then
    { t with status_id := some targetLane, position := p,
             status := coarseStatusOfKey targetKey }
  else if t.status_id = oldLane ∧ oldPos < t.position then
    { t with position := t.position - 1 }
  else if t.status_id = some targetLane ∧ p ≤ t.position then
    { t with position := t.position + 1 }
  else t

/-- The lane assignment, position and coarse status of a task — the fields
the move algorithm is specified to manage. -/
def taskPlacement (t : Task) : Nat × Option Nat × Int × String :=
  (t.id, t.status_id, t.position, t.status)

/-- Reorder as the specification words it: a lane of the project whose id
appears in the list receives the list index of its id as `order_index`;
every other lane is untouched. -/
def reorderSpecFn (pid : Nat) (ids : List Nat) (s : Lane) : Lane :=
  if s.project_id = pid ∧ s.id ∈ ids then
    { s with order_index := Int.ofNat (ids.indexOf s.id) }
  else s

/-- The order index the specification asserts for a freshly created lane:
one past the maximum among the ACTIVE lanes of the project, `0` when the
project has no active lane. -/
def claimedNewOrderIndex (db : DB) (pid : Nat) : Int :=
  match ((db.lanes.filter fun s => s.project_id == pid && s.is_active).map
      (·.order_index)).max? with
  | some m => m + 1
  | none => 0

/-- The order indexes of every lane of a project, active or not. -/
def projectOrderIndexes (db : DB) (pid : Nat) : List Int :=
  (db.lanes.filter fun s => s.project_id == pid).map (·.order_index)

/- Concrete fixtures used by the witnesses and counterexamples. -/

def mkTask (id : Nat) (lane : Option Nat) (pos : Int) (st : String) : Task :=
  { id := id, title := "t", status_id := lane, position := pos, status := st,
    priority := "medium", project_id := 1, completedAt := none }

def laneTodo : Lane :=
  { id := 10, project_id := 1, status_key := "todo", title := "To Do",
    color := "#ef4444", order_index := 0, is_default := true, is_active := true }

def laneDone : Lane :=
  { id := 11, project_id := 1, status_key := "completed", title := "Completed",
    color := "#22c55e", order_index := 1, is_default := true, is_active := true }

def laneExtra : Lane :=
  { id := 12, project_id := 1, status_key := "review", title := "Review",
    color := "#6b7280", order_index := 2, is_default := false, is_active := true }

def laneRetired : Lane :=
  { id := 14, project_id := 1, status_key := "legacy", title := "Legacy",
    color := "#6b7280", order_index := 0, is_default := false, is_active := false }

/-- One lane holding four tasks at positions 0, 1, 2, 3. -/
def db4 : DB :=
  { tasks := [mkTask 1 (some 10) 0 "todo", mkTask 2 (some 10) 1 "todo",
      mkTask 3 (some 10) 2 "todo", mkTask 4 (some 10) 3 "todo"],
    lanes := [laneTodo] }

/-- Lane 10 holds tasks at 0, 1, 2 and lane 11 holds tasks at 0, 1. -/
def dbAB : DB :=
  { tasks := [mkTask 1 (some 10) 0 "todo", mkTask 2 (some 10) 1 "todo",
      mkTask 3 (some 10) 2 "todo", mkTask 5 (some 11) 0 "completed",
      mkTask 6 (some 11) 1 "completed"],
    lanes := [laneTodo, laneDone] }

def laneOther : Lane :=
  { id := 99, project_id := 2, status_key := "todo", title := "To Do",
    color := "#ef4444", order_index := 0, is_default := true, is_active := true }

/-- Three active lanes of project 1 with order indexes 0, 1, 2, plus one
lane that belongs to project 2. -/
def dbLanes : DB := { tasks := [], lanes := [laneTodo, laneDone, laneExtra, laneOther] }

/-- One project whose only lane is retired (`is_active = false`). -/
def dbRetiredOnly : DB := { tasks := [], lanes := [laneRetired] }

/-- One empty active `todo` lane. -/
def dbTodoOnly : DB := { tasks := [], lanes := [laneTodo] }

/- Basic facts about the embedded primitives. -/

lemma find?_task_props {db : DB} {id : Nat} {task : Task}
    (h : db.tasks.find? (fun t => t.id == id) = some task) :
    task ∈ db.tasks ∧ task.id = id :=
  ⟨List.mem_of_find?_eq_some h, by simpa using List.find?_some h⟩

lemma task_eq_of_mem_of_id_eq {db : DB} {task t : Task}
    (hids : (db.tasks.map Task.id).Nodup) (htaskmem : task ∈ db.tasks)
    (ht : t ∈ db.tasks) (h : t.id = task.id) : t = task :=
  List.inj_on_of_nodup_map hids ht htaskmem h

lemma beforeUpdateHook_of_status_eq {prev : String} {t : Task} {now : Nat}
    (h : t.status = prev) : beforeUpdateHook prev t now = t := by
  simp [beforeUpdateHook, h]

lemma taskPlacement_beforeUpdateHook (prev : String) (t : Task) (now : Nat) :
    taskPlacement (beforeUpdateHook prev t now) = taskPlacement t := by
  simp only [beforeUpdateHook]
  split_ifs <;> rfl

lemma statusMapping_eq_coarseStatusOfKey (key : String) :
    statusMapping key = coarseStatusOfKey key := by
  simp only [statusMapping, coarseStatusOfKey]
  split_ifs <;> simp_all

lemma statusMapping_completed : statusMapping "completed" = "completed" := by decide

lemma statusMapping_ne_completed {key : String} (h : key ≠ "completed") :
    statusMapping key ≠ "completed" := by
  simp only [statusMapping]
  split_ifs <;> simp_all

/-- Unfolding of the same-status branch of the handler of
PUT /api/tasks/:id/status. -/
lemma moveTask_same_eq {db : DB} {id laneId : Nat} {p : Int} {now : Nat}
    {task : Task} {lane : Lane}
    (htask : db.tasks.find? (fun t => t.id == id) = some task)
    (hlane : db.lanes.find? (fun s =>
        s.id == laneId && s.project_id == task.project_id && s.is_active) = some lane)
    (hsame : task.status_id = some laneId) :
    moveTask db id laneId p now =
      .ok (updateTaskRow
        (if task.position < p then shiftSameStatusDown db laneId task.position p
         else if task.position > p then shiftSameStatusUp db laneId task.position p
         else db)
        id (fun t => { t with position := p }) now) := by
  unfold moveTask
  rw [htask]
  dsimp only
  rw [hlane]
  simp [hsame]

/-- Unfolding of the cross-status branch of the handler of
PUT /api/tasks/:id/status. -/
lemma moveTask_cross_eq {db : DB} {id laneId : Nat} {p : Int} {now : Nat}
    {task : Task} {lane : Lane}
    (htask : db.tasks.find? (fun t => t.id == id) = some task)
    (hlane : db.lanes.find? (fun s =>
        s.id == laneId && s.project_id == task.project_id && s.is_active) = some lane)
    (hdiff : task.status_id ≠ some laneId) :
    moveTask db id laneId p now =
      .ok (updateTaskRow
        (shiftNewStatus (shiftOldStatus db task.status_id task.position) laneId p) id
        (fun t => { t with status_id := some laneId, position := p,
                           status := statusMapping lane.status_key }) now) := by
  unfold moveTask
  rw [htask]
  dsimp only
  rw [hlane]
  simp [hdiff]



/-- C3: a same-lane `moveTask` shifts exactly the lane tasks in the
half-open range between the old and the target position — down by one when
the task moves towards larger positions, up by one when it moves towards
smaller ones — and the moved task itself ends at the target position;
every other task keeps its row. -/
theorem same_lane_move_shifts_exact_range
    (db : DB) (id laneId : Nat) (p : Int) (now : Nat) (task : Task) (lane : Lane)
    (hids : (db.tasks.map Task.id).Nodup)
    (htask : db.tasks.find? (fun t => t.id == id) = some task)
    (hlane : db.lanes.find? (fun s =>
        s.id == laneId && s.project_id == task.project_id && s.is_active) = some lane)
    (hsame : task.status_id = some laneId) :
    moveTask db id laneId p now =
      .ok { db with tasks := db.tasks.map (sameLaneMoveSpecFn laneId id task.position p) } := by
  obtain ⟨hmem, hid⟩ := find?_task_props htask
  rw [moveTask_same_eq htask hlane hsame]
  rcases lt_trichotomy task.position p with hlt | heq | hgt
  · rw [if_pos hlt]
    simp only [updateTaskRow, shiftSameStatusDown, List.map_map]
    refine congrArg Except.ok (congrArg (fun l => DB.mk l db.lanes) ?_)
    apply List.map_congr_left
    intro t ht
    simp only [Function.comp_apply, sameLaneMoveSpecFn]
    by_cases htid : t.id = id
    · have hteq : t = task := task_eq_of_mem_of_id_eq hids hmem ht (htid.trans hid.symm)
      subst hteq
      rw [if_neg (show ¬ (t.status_id = some laneId ∧ t.position < t.position ∧ t.position ≤ p)
            from fun hc => lt_irrefl _ hc.2.1)]
      rw [if_pos htid]
      rw [beforeUpdateHook_of_status_eq
            (show ({ t with position := p } : Task).status = t.status from rfl)]
      rw [if_pos htid]
    · have hgid : (if t.status_id = some laneId ∧ task.position < t.position ∧ t.position ≤ p
          then { t with position := t.position - 1 } else t).id = t.id := by
        split <;> rfl
      rw [if_neg (fun hcc => htid (hgid.symm.trans hcc)), if_neg htid]
      by_cases hc2 : t.status_id = some laneId ∧ task.position < t.position ∧ t.position ≤ p
      · rw [if_pos hc2, if_pos hc2]
      · rw [if_neg hc2, if_neg hc2, if_neg (show ¬ (t.status_id = some laneId ∧ p ≤ t.position ∧
            t.position < task.position) from by rintro ⟨-, h1, h2⟩; omega)]
  · rw [if_neg (show ¬ task.position < p from by omega),
      if_neg (show ¬ task.position > p from by omega)]
    simp only [updateTaskRow]
    refine congrArg Except.ok (congrArg (fun l => DB.mk l db.lanes) ?_)
    apply List.map_congr_left
    intro t ht
    simp only [sameLaneMoveSpecFn]
    by_cases htid : t.id = id
    · have hteq : t = task := task_eq_of_mem_of_id_eq hids hmem ht (htid.trans hid.symm)
      subst hteq
      rw [if_pos htid]
      rw [beforeUpdateHook_of_status_eq
            (show ({ t with position := p } : Task).status = t.status from rfl)]
      rw [if_pos htid]
    · rw [if_neg htid,
        if_neg (show ¬ (t.status_id = some laneId ∧ task.position < t.position ∧ t.position ≤ p)
          from by rintro ⟨-, h1, h2⟩; omega),
        if_neg (show ¬ (t.status_id = some laneId ∧ p ≤ t.position ∧ t.position < task.position)
          from by rintro ⟨-, h1, h2⟩; omega), if_neg htid]
  · rw [if_neg (show ¬ task.position < p from by omega), if_pos hgt]
    simp only [updateTaskRow, shiftSameStatusUp, List.map_map]
    refine congrArg Except.ok (congrArg (fun l => DB.mk l db.lanes) ?_)
    apply List.map_congr_left
    intro t ht
    simp only [Function.comp_apply, sameLaneMoveSpecFn]
    by_cases htid : t.id = id
    · have hteq : t = task := task_eq_of_mem_of_id_eq hids hmem ht (htid.trans hid.symm)
      subst hteq
      rw [if_neg (show ¬ (t.status_id = some laneId ∧ p ≤ t.position ∧ t.position < t.position)
            from fun hc => lt_irrefl _ hc.2.2)]
      rw [if_pos htid]
      rw [beforeUpdateHook_of_status_eq
            (show ({ t with position := p } : Task).status = t.status from rfl)]
      rw [if_pos htid]
    · have hgid : (if t.status_id = some laneId ∧ p ≤ t.position ∧ t.position < task.position
          then { t with position := t.position + 1 } else t).id = t.id := by
        split <;> rfl
      rw [if_neg (fun hcc => htid (hgid.symm.trans hcc)), if_neg htid]
      by_cases hc3 : t.status_id = some laneId ∧ p ≤ t.position ∧ t.position < task.position
      · rw [if_pos hc3, if_neg (show ¬ (t.status_id = some laneId ∧ task.position < t.position ∧
            t.position ≤ p) from by rintro ⟨-, h1, h2⟩; omega)]
      · rw [if_neg hc3, if_neg (show ¬ (t.status_id = some laneId ∧ task.position < t.position ∧
            t.position ≤ p) from by rintro ⟨-, h1, h2⟩; omega)]

/-- Witness for `same_lane_move_shifts_exact_range` at the scenario of the
claim: a lane holds positions 0, 1, 2, 3 and the task at position 1 moves
to position 3; the results are task0 at 0, task2 at 1, task3 at 2 and the
moved task at 3. -/
theorem same_lane_move_witness :
    moveTask db4 2 10 3 99 =
      .ok { db4 with tasks := db4.tasks.map (sameLaneMoveSpecFn 10 2 1 3) } ∧
    (moveTask db4 2 10 3 99).map (fun d => d.tasks.map fun t => (t.id, t.position)) =
      .ok [(1, 0), (2, 3), (3, 1), (4, 2)] :=
  ⟨same_lane_move_shifts_exact_range db4 2 10 3 99 (mkTask 2 (some 10) 1 "todo") laneTodo
      (by decide) (by decide) (by decide) (by decide), by decide⟩

/-- C9: a `moveTask` call whose target lane and target position both match
the current state of the task (and whose lane passes validation) performs
no shift and modifies no row: the state is returned exactly unchanged. -/
theorem noop_move_returns_state_unchanged
    (db : DB) (id laneId : Nat) (now : Nat) (task : Task) (lane : Lane)
    (hids : (db.tasks.map Task.id).Nodup)
    (htask : db.tasks.find? (fun t => t.id == id) = some task)
    (hlane : db.lanes.find? (fun s =>
        s.id == laneId && s.project_id == task.project_id && s.is_active) = some lane)
    (hsame : task.status_id = some laneId) :
    moveTask db id laneId task.position now = .ok db := by
  obtain ⟨hmem, hid⟩ := find?_task_props htask
  rw [moveTask_same_eq htask hlane hsame]
  rw [if_neg (lt_irrefl _), if_neg (lt_irrefl _)]
  refine congrArg Except.ok ?_
  have hmapid : db.tasks.map (fun t =>
      if t.id = id then beforeUpdateHook t.status { t with position := task.position } now
      else t) = db.tasks.map (fun u => u) := by
    apply List.map_congr_left
    intro t ht
    by_cases htid : t.id = id
    · have hteq : t = task := task_eq_of_mem_of_id_eq hids hmem ht (htid.trans hid.symm)
      subst hteq
      rw [if_pos htid, beforeUpdateHook_of_status_eq
        (show ({ t with position := t.position } : Task).status = t.status from rfl)]
    · rw [if_neg htid]
  show ({ db with tasks := _ } : DB) = db
  rw [hmapid]
  simp

/-- Witness for `noop_move_returns_state_unchanged`: moving task 2, which
sits in lane 10 at position 1, to lane 10 position 1 leaves the state as
it was. -/
theorem noop_move_witness : moveTask db4 2 10 1 99 = .ok db4 :=
  noop_move_returns_state_unchanged db4 2 10 99 (mkTask 2 (some 10) 1 "todo") laneTodo
    (by decide) (by decide) (by decide) (by decide)

/-- C4: a cross-lane `moveTask` shifts exactly the old-lane tasks strictly
after the vacated position down by one, exactly the target-lane tasks at
or after the target position up by one, and reassigns the moved task to
the target lane and position with its coarse status recomputed from the
target lane key (unmapped keys default to `todo`); this is stated on the
id, lane, position and coarse status of every row. -/
theorem cross_lane_move_shifts_exact
    (db : DB) (id laneId : Nat) (p : Int) (now : Nat) (task : Task) (lane : Lane)
    (hids : (db.tasks.map Task.id).Nodup)
    (htask : db.tasks.find? (fun t => t.id == id) = some task)
    (hlane : db.lanes.find? (fun s =>
        s.id == laneId && s.project_id == task.project_id && s.is_active) = some lane)
    (hdiff : task.status_id ≠ some laneId) :
    (moveTask db id laneId p now).map (fun d => d.tasks.map taskPlacement) =
      .ok (db.tasks.map fun t => taskPlacement
        (crossLaneMoveSpecFn task.status_id laneId id task.position p lane.status_key t)) := by
  obtain ⟨hmem, hid⟩ := find?_task_props htask
  rw [moveTask_cross_eq htask hlane hdiff]
  simp only [Except.map, updateTaskRow, shiftNewStatus, shiftOldStatus, List.map_map]
  refine congrArg Except.ok ?_
  apply List.map_congr_left
  intro t ht
  simp only [Function.comp_apply, crossLaneMoveSpecFn]
  by_cases htid : t.id = id
  · have hteq : t = task := task_eq_of_mem_of_id_eq hids hmem ht (htid.trans hid.symm)
    subst hteq
    rw [if_neg (show ¬ (t.status_id = t.status_id ∧ t.position < t.position)
          from fun hc => lt_irrefl _ hc.2)]
    rw [if_neg (show ¬ (t.status_id = some laneId ∧ p ≤ t.position) from fun hc => hdiff hc.1)]
    rw [if_pos htid, taskPlacement_beforeUpdateHook, if_pos htid]
    simp [taskPlacement, statusMapping_eq_coarseStatusOfKey]
  · by_cases hc1 : t.status_id = task.status_id ∧ task.position < t.position
    · rw [if_pos hc1]
      rw [if_neg (show ¬ (({ t with position := t.position - 1 } : Task).status_id = some laneId ∧
            p ≤ ({ t with position := t.position - 1 } : Task).position)
          from fun hc => hdiff (hc1.1 ▸ (show t.status_id = some laneId from hc.1)))]
      rw [if_neg (show ¬ (({ t with position := t.position - 1 } : Task).id = id) from htid)]
      rw [if_neg htid, if_pos hc1]
    · rw [if_neg hc1]
      by_cases hc2 : t.status_id = some laneId ∧ p ≤ t.position
      · rw [if_pos hc2]
        rw [if_neg (show ¬ (({ t with position := t.position + 1 } : Task).id = id) from htid)]
        rw [if_neg htid, if_neg hc1]
      · rw [if_neg hc2, if_neg htid, if_neg htid, if_neg hc1]

/-- Witness for `cross_lane_move_shifts_exact` at the scenario of the
specification: lane 10 holds positions 0, 1, 2 and lane 11 (key
`completed`) holds 0, 1; the lane-10 task at position 1 moves to lane 11
position 1; lane 10 compacts to 0, 1 and lane 11 becomes 0, 1, 2 with the
moved task at 1 carrying coarse status `completed`. -/
theorem cross_lane_move_witness :
    (moveTask dbAB 2 11 1 99).map (fun d => d.tasks.map taskPlacement) =
      .ok (dbAB.tasks.map fun t => taskPlacement
        (crossLaneMoveSpecFn (some 10) 11 2 1 1 "completed" t)) ∧
    (moveTask dbAB 2 11 1 99).map (fun d => d.tasks.map taskPlacement) =
      .ok [(1, some 10, 0, "todo"), (2, some 11, 1, "completed"), (3, some 10, 1, "todo"),
        (5, some 11, 0, "completed"), (6, some 11, 2, "completed")] :=
  ⟨cross_lane_move_shifts_exact dbAB 2 11 1 99 (mkTask 2 (some 10) 1 "todo") laneDone
      (by decide) (by decide) (by decide) (by decide), by decide⟩

lemma int_max?_eq_some_iff {xs : List Int} {a : Int} :
    xs.max? = some a ↔ a ∈ xs ∧ ∀ b ∈ xs, b ≤ a := by
  have hanti : Std.Antisymm (α := Int) (· ≤ ·) := ⟨le_antisymm⟩
  exact List.max?_eq_some_iff (fun a => le_refl a) (fun a b => max_choice a b)
    (fun a b c => max_le_iff)

/-- C8: POST /api/tasks inserts the new task at the tail of the resolved
lane — at position 0 when the lane is empty, and at one past the largest
occupied position otherwise — and appends it to the table without touching
the position of any existing task. -/
theorem create_task_appends_at_tail
    (db : DB) (newId : Nat) (title priority : String) (pid : Nat) (ds : Lane)
    (hds : db.lanes.find? (fun s =>
        s.project_id == pid && s.status_key == "todo" && s.is_active) = some ds) :
    ∃ db2 task, createTask db newId title priority pid = .ok (db2, task) ∧
      db2.tasks = db.tasks ++ [task] ∧ db2.lanes = db.lanes ∧
      (lanePositions db ds.id = [] → task.position = 0) ∧
      ∀ m ∈ lanePositions db ds.id,
        (∀ q ∈ lanePositions db ds.id, q ≤ m) → task.position = m + 1 := by
  unfold createTask
  rw [hds]
  refine ⟨_, _, rfl, rfl, rfl, ?_, ?_⟩
  · intro hemp
    simp [lastPositionIn, hemp]
  · intro m hm hmax
    have hlast : lastPositionIn db ds.id = some m := by
      rw [lastPositionIn, int_max?_eq_some_iff]
      exact ⟨hm, hmax⟩
    simp [hlast]

/-- Witness for `create_task_appends_at_tail`: creating a task in the
project whose `todo` lane already holds positions 0, 1, 2, 3 appends it at
position 4, leaving the four existing rows untouched. -/
theorem create_task_witness :
    (∃ db2 task, createTask db4 7 "new" "medium" 1 = .ok (db2, task) ∧
      db2.tasks = db4.tasks ++ [task] ∧ db2.lanes = db4.lanes ∧
      (lanePositions db4 laneTodo.id = [] → task.position = 0) ∧
      ∀ m ∈ lanePositions db4 laneTodo.id,
        (∀ q ∈ lanePositions db4 laneTodo.id, q ≤ m) → task.position = m + 1) ∧
    (createTask db4 7 "new" "medium" 1).map (fun r => r.2.position) = .ok 4 :=
  ⟨create_task_appends_at_tail db4 7 "new" "medium" 1 laneTodo (by decide), by decide⟩

/-- Counterexample to C7: in a project whose only lane is retired, POST
/api/statuses assigns order index 1 — one past the retired lane — while
the claim (maximum over ACTIVE lanes, 0 when there is none) demands 0.
The handler queries the highest `order_index` without filtering on
`is_active`. -/
theorem create_status_counts_retired_lanes :
    (createStatus dbRetiredOnly 15 "New Lane" none 1 none).map (fun r => r.2.order_index) =
      .ok 1 ∧
    claimedNewOrderIndex dbRetiredOnly 1 = 0 ∧ (1 : Int) ≠ 0 := by decide

/-- C7 amended: the order index of a freshly created lane is one past the
maximum `order_index` among ALL lanes of the project — active or retired —
and 0 only when the project has no lane at all; the new lane is appended
and no other row changes. -/
theorem create_status_appends_after_any_lane
    (db : DB) (newId : Nat) (title : String) (color : Option String) (pid : Nat)
    (key : Option String)
    (hreq : ¬ (title = "" ∨ pid = 0))
    (hdup : (db.lanes.any fun s =>
        s.project_id == pid && s.status_key == key.getD (generateStatusKey title)) = false) :
    ∃ db2 lane, createStatus db newId title color pid key = .ok (db2, lane) ∧
      db2.lanes = db.lanes ++ [lane] ∧ db2.tasks = db.tasks ∧
      (projectOrderIndexes db pid = [] → lane.order_index = 0) ∧
      ∀ m ∈ projectOrderIndexes db pid,
        (∀ q ∈ projectOrderIndexes db pid, q ≤ m) → lane.order_index = m + 1 := by
  unfold createStatus
  rw [if_neg hreq]
  simp only [hdup, Bool.false_eq_true, if_false]
  refine ⟨_, _, rfl, rfl, rfl, ?_, ?_⟩
  · intro hemp
    simp only [projectOrderIndexes] at hemp
    simp [hemp]
  · intro m hm hmax
    have hsome : ((db.lanes.filter fun s => s.project_id == pid).map (·.order_index)).max?
        = some m := by
      rw [int_max?_eq_some_iff]
      exact ⟨hm, hmax⟩
    simp [hsome]

/-- Witness for `create_status_appends_after_any_lane`: adding a lane to
the project of `dbRetiredOnly`, whose single (retired) lane carries order
index 0, yields order index 1. -/
theorem create_status_witness :
    (∃ db2 lane, createStatus dbRetiredOnly 15 "Review" none 1 none = .ok (db2, lane) ∧
      db2.lanes = dbRetiredOnly.lanes ++ [lane] ∧ db2.tasks = dbRetiredOnly.tasks ∧
      (projectOrderIndexes dbRetiredOnly 1 = [] → lane.order_index = 0) ∧
      ∀ m ∈ projectOrderIndexes dbRetiredOnly 1,
        (∀ q ∈ projectOrderIndexes dbRetiredOnly 1, q ≤ m) → lane.order_index = m + 1) ∧
    (createStatus dbRetiredOnly 15 "Review" none 1 none).map (fun r => r.2.order_index) =
      .ok 1 :=
  ⟨create_status_appends_after_any_lane dbRetiredOnly 15 "Review" none 1 none
      (by decide) (by decide), by decide⟩

lemma reorder_go (pid : Nat) (ids : List Nat) :
    ∀ (k : Nat) (db : DB), ids.Nodup →
      ((List.enumFrom k ids).foldl (fun acc q => reorderStep pid q.2 (Int.ofNat q.1) acc)
          db).lanes =
        db.lanes.map fun s =>
          if s.project_id = pid ∧ s.id ∈ ids then
            { s with order_index := Int.ofNat (k + ids.indexOf s.id) }
          else s := by
  induction ids with
  | nil =>
    intro k db _
    simp
  | cons a rest ih =>
    intro k db hnd
    obtain ⟨hna, hndr⟩ := List.nodup_cons.mp hnd
    simp only [List.enumFrom, List.foldl_cons]
    rw [ih (k + 1) (reorderStep pid a (Int.ofNat k) db) hndr]
    simp only [reorderStep, List.map_map]
    apply List.map_congr_left
    intro s hs
    simp only [Function.comp_apply]
    by_cases hproj : s.project_id = pid
    · by_cases hsa : s.id = a
      · rw [if_pos (show s.id = a ∧ s.project_id = pid from ⟨hsa, hproj⟩)]
        rw [if_neg (show ¬ (({ s with order_index := Int.ofNat k } : Lane).project_id = pid ∧
              ({ s with order_index := Int.ofNat k } : Lane).id ∈ rest)
            from fun hc => hna (hsa ▸ hc.2))]
        rw [if_pos (show s.project_id = pid ∧ s.id ∈ a :: rest from ⟨hproj, by simp [hsa]⟩)]
        simp [hsa, List.indexOf_cons_self]
      · rw [if_neg (show ¬ (s.id = a ∧ s.project_id = pid) from fun hc => hsa hc.1)]
        by_cases hsr : s.id ∈ rest
        · rw [if_pos (show s.project_id = pid ∧ s.id ∈ rest from ⟨hproj, hsr⟩)]
          rw [if_pos (show s.project_id = pid ∧ s.id ∈ a :: rest from ⟨hproj, by simp [hsr]⟩)]
          have harg : k + 1 + rest.indexOf s.id = k + (a :: rest).indexOf s.id := by
            rw [List.indexOf_cons_ne rest (fun h => hsa h.symm)]
            omega
          rw [harg]
        · rw [if_neg (show ¬ (s.project_id = pid ∧ s.id ∈ rest) from fun hc => hsr hc.2)]
          rw [if_neg (show ¬ (s.project_id = pid ∧ s.id ∈ a :: rest) from
            fun hc => ((List.mem_cons.mp hc.2).elim (fun h => hsa h) (fun h => hsr h)))]
    · rw [if_neg (show ¬ (s.id = a ∧ s.project_id = pid) from fun hc => hproj hc.2)]
      rw [if_neg (show ¬ (s.project_id = pid ∧ s.id ∈ rest) from fun hc => hproj hc.1)]
      rw [if_neg (show ¬ (s.project_id = pid ∧ s.id ∈ a :: rest) from fun hc => hproj hc.1)]

/-- C6 amended: PUT /api/statuses/reorder/:projectId assigns to every lane
of the project whose id occurs in the submitted list the index of that id
as `order_index`, and silently leaves every other lane — including listed
ids that do not belong to the project — untouched; the updates are issued
as independent per-id statements, not as one atomic batch. -/
theorem reorder_assigns_list_indices (db : DB) (pid : Nat) (ids : List Nat)
    (hnd : ids.Nodup) :
    (reorderStatuses db pid ids).lanes = db.lanes.map (reorderSpecFn pid ids) := by
  unfold reorderStatuses
  rw [show ids.enum = List.enumFrom 0 ids from rfl]
  rw [reorder_go pid ids 0 db hnd]
  apply List.map_congr_left
  intro s hs
  simp only [reorderSpecFn, Nat.zero_add]

/-- Witness for `reorder_assigns_list_indices` at the scenario of the
specification: lanes A = 10, B = 11, C = 12 carry order 0, 1, 2;
reordering with the list C, A, B yields C at 0, A at 1, B at 2, while the
listed id 99 of another project is silently ignored. -/
theorem reorder_witness :
    (reorderStatuses dbLanes 1 [12, 10, 11, 99]).lanes =
      dbLanes.lanes.map (reorderSpecFn 1 [12, 10, 11, 99]) ∧
    ((reorderStatuses dbLanes 1 [12, 10, 11, 99]).lanes.map fun s => (s.id, s.order_index)) =
      [(10, 1), (11, 2), (12, 0), (99, 0)] :=
  ⟨reorder_assigns_list_indices dbLanes 1 [12, 10, 11, 99] (by decide), by decide⟩

/-- Counterexample to the atomic-batch part of C6: the handler issues one
independent UPDATE per listed id with no surrounding transaction, so the
state in which only the first statement has completed is observable when a
later statement fails — and it is neither the initial state nor the fully
reordered one (lanes 10 and 12 then share order index 0). -/
theorem reorder_not_atomic :
    reorderFirstK dbLanes 1 [12, 10, 11, 99] 1 ≠ dbLanes ∧
    reorderFirstK dbLanes 1 [12, 10, 11, 99] 1 ≠ reorderStatuses dbLanes 1 [12, 10, 11, 99] ∧
    ((reorderFirstK dbLanes 1 [12, 10, 11, 99] 1).lanes.map fun s => (s.id, s.order_index)) =
      [(10, 0), (11, 1), (12, 0), (99, 0)] := by decide

/-- The state after deleting task 1 from `db4`: survivors keep positions
1, 2, 3 — no compaction. -/
def db4Deleted : DB :=
  { tasks := [mkTask 2 (some 10) 1 "todo", mkTask 3 (some 10) 2 "todo",
      mkTask 4 (some 10) 3 "todo"],
    lanes := [laneTodo] }

/-- The state reached by create, create, delete from `dbTodoOnly`: one
surviving task stranded at position 1. -/
def dbAfterGap : DB := { tasks := [mkTask 2 (some 10) 1 "todo"], lanes := [laneTodo] }

/-- C1 fails on the code: the handler of PUT /api/tasks/:id/status issues
its bulk shifts and the row update as separate statements with no
transaction, so the state after only the first statement — the compaction
of the old lane — is observable when a later statement fails.  On the
cross-lane scenario below that intermediate state differs from the initial
one and has lost density in lane 10 (two rows at position 1), exactly the
corruption the atomic-unit claim rules out. -/
theorem cross_move_shifts_not_atomic :
    laneIsDense dbAB 10 ∧ laneIsDense dbAB 11 ∧
    moveTask dbAB 2 11 1 99 =
      .ok (updateTaskRow (shiftNewStatus (shiftOldStatus dbAB (some 10) 1) 11 1) 2
        (fun t => { t with status_id := some 11, position := 1, status := "completed" }) 99) ∧
    shiftOldStatus dbAB (some 10) 1 ≠ dbAB ∧
    ¬ laneIsDense (shiftOldStatus dbAB (some 10) 1) 10 := by decide

/-- C5 fails on the code: DELETE /api/tasks/:id only destroys the row.  No
compaction statement is issued, so after deleting the task at position 0
of a dense lane the survivors keep positions 1, 2, 3 and the lane is no
longer dense. -/
theorem delete_leaves_positions_unshifted :
    laneIsDense db4 10 ∧
    deleteTask db4 1 = .ok db4Deleted ∧
    ((deleteTask db4 1).map fun d => d.tasks.map fun t => (t.id, t.position)) =
      .ok [(2, 1), (3, 2), (4, 3)] ∧
    ¬ laneIsDense db4Deleted 10 := by decide

/-- C2 fails on the code: starting from a dense (empty) lane, two task
creations keep it dense, but deleting the task at position 0 leaves the
survivor at position 1 — the position set of the lane is then {1}, not
{0}, because deletion performs no compaction. -/
theorem density_broken_by_deletion :
    laneIsDense dbTodoOnly 10 ∧
    ((createTask dbTodoOnly 1 "t" "medium" 1).bind fun r =>
      (createTask r.1 2 "t" "medium" 1).bind fun r2 =>
        deleteTask r2.1 1) = .ok dbAfterGap ∧
    ¬ laneIsDense dbAfterGap 10 := by decide

lemma beforeUpdateHook_id (prev : String) (t : Task) (now : Nat) :
    (beforeUpdateHook prev t now).id = t.id := by
  simp only [beforeUpdateHook]
  split_ifs <;> rfl

lemma cross_fn_id_pres (laneId id : Nat) (oldL : Option Nat) (oldPos p : Int)
    (key : String) (now : Nat) (t0 : Task) :
    ((fun u => if u.id = id then beforeUpdateHook u.status
        { u with status_id := some laneId, position := p, status := statusMapping key } now
      else u)
     ((fun u => if u.status_id = some laneId ∧ p ≤ u.position
        then { u with position := u.position + 1 } else u)
      ((fun u => if u.status_id = oldL ∧ oldPos < u.position
        then { u with position := u.position - 1 } else u) t0))).id = t0.id := by
  dsimp only
  split_ifs <;> simp [beforeUpdateHook_id]

/-- C10: when an instance-level task update changes the coarse `status`
field, the `beforeUpdate` hook stamps `completedAt` with the current time
on a transition into `completed` and clears it on a transition to any
other status; consequently the moved row of a cross-lane `moveTask` into a
lane keyed `completed` carries `completedAt = now`, and a cross-lane move
out of `completed` carries `completedAt = none`. -/
theorem completed_timestamp_follows_status :
    (∀ (prev : String) (t : Task) (now : Nat), t.status ≠ prev →
      (t.status = "completed" → (beforeUpdateHook prev t now).completedAt = some now) ∧
      (t.status ≠ "completed" → (beforeUpdateHook prev t now).completedAt = none)) ∧
    (∀ (db : DB) (id laneId : Nat) (p : Int) (now : Nat) (task : Task) (lane : Lane),
      (db.tasks.map Task.id).Nodup →
      db.tasks.find? (fun t => t.id == id) = some task →
      db.lanes.find? (fun s =>
        s.id == laneId && s.project_id == task.project_id && s.is_active) = some lane →
      task.status_id ≠ some laneId →
      ∀ d, moveTask db id laneId p now = .ok d →
        ∀ t ∈ d.tasks, t.id = id →
          (lane.status_key = "completed" → task.status ≠ "completed" →
            t.completedAt = some now) ∧
          (lane.status_key ≠ "completed" → task.status = "completed" →
            t.completedAt = none)) := by
  constructor
  · intro prev t now hch
    constructor
    · intro hc
      have hprev : prev ≠ "completed" := fun h => hch (hc.trans h.symm)
      simp [beforeUpdateHook, hch, hc, hprev, Ne.symm hprev]
    · intro hnc
      simp [beforeUpdateHook, hch, hnc]
  · intro db id laneId p now task lane hids htask hlane hdiff d hd t ht htid
    obtain ⟨hmem, hid⟩ := find?_task_props htask
    rw [moveTask_cross_eq htask hlane hdiff] at hd
    injection hd with hd
    subst hd
    simp only [updateTaskRow, shiftNewStatus, shiftOldStatus, List.map_map,
      List.mem_map, Function.comp_apply] at ht
    obtain ⟨t0, ht0, hteq⟩ := ht
    by_cases ht0id : t0.id = id
    · have ht0eq : t0 = task := task_eq_of_mem_of_id_eq hids hmem ht0 (ht0id.trans hid.symm)
      subst ht0eq
      rw [if_neg (show ¬ (t0.status_id = t0.status_id ∧ t0.position < t0.position)
            from fun hc => lt_irrefl _ hc.2)] at hteq
      rw [if_neg (show ¬ (t0.status_id = some laneId ∧ p ≤ t0.position)
            from fun hc => hdiff hc.1)] at hteq
      rw [if_pos ht0id] at hteq
      subst hteq
      constructor
      · intro hkey hst
        have hmap : statusMapping lane.status_key = "completed" := by
          rw [hkey]
          exact statusMapping_completed
        simp [beforeUpdateHook, hmap, hst, Ne.symm hst]
      · intro hkey hst
        have hmap : statusMapping lane.status_key ≠ "completed" :=
          statusMapping_ne_completed hkey
        simp [beforeUpdateHook, hmap, hst]
    · exfalso
      rw [← hteq] at htid
      exact ht0id ((cross_fn_id_pres laneId id task.status_id task.position p
        lane.status_key now t0).symm.trans htid)

/-- Explicit value of the moved row of the cross-lane witness move: task 2
lands in lane 11 (`completed`) at position 1 with `completedAt` stamped. -/
def movedTaskEx : Task :=
  { id := 2, title := "t", status_id := some 11, position := 1, status := "completed",
    priority := "medium", project_id := 1, completedAt := some 99 }

/-- The full state after the cross-lane witness move. -/
def dbABMoved : DB :=
  { tasks := [mkTask 1 (some 10) 0 "todo", movedTaskEx, mkTask 3 (some 10) 1 "todo",
      mkTask 5 (some 11) 0 "completed", mkTask 6 (some 11) 2 "completed"],
    lanes := [laneTodo, laneDone] }

/-- Witness for `completed_timestamp_follows_status`: the hook stamps a
task flipped from `todo` to `completed` at time 99, and the cross-lane
move of `dbAB` into the `completed` lane leaves the moved row with
`completedAt = some 99`. -/
theorem completed_timestamp_witness :
    (beforeUpdateHook "todo" (mkTask 2 (some 11) 1 "completed") 99).completedAt = some 99 ∧
    movedTaskEx.completedAt = some 99 := by
  constructor
  · exact (completed_timestamp_follows_status.1 "todo" (mkTask 2 (some 11) 1 "completed") 99
      (by decide)).1 (by decide)
  · exact (completed_timestamp_follows_status.2 dbAB 2 11 1 99 (mkTask 2 (some 10) 1 "todo")
      laneDone (by decide) (by decide) (by decide) (by decide) dbABMoved (by decide)
      movedTaskEx (by decide) (by decide)).1 (by decide) (by decide)

end PMBackend
